import Mathlib

/-!
Verification development for the agentic-pdf-app repository.

This file gives a shallow embedding, in Lean 4, of the core logic of the
repository:

* the tiered field-mapping algorithm of `FieldMappingService.mapFields`
  (src/unnamed/part_004, a field-mapping MCP service),
* the form-filling workflow orchestrator
  `FormProcessingOrchestrator.runFormFillingWorkflow` /
  `getWorkflowResult` (src/src/mcp-servers/src/index.ts),
* the PDF-analysis workflow orchestrator `WorkflowOrchestrator`
  (src/unnamed/part_002) together with the `OrchestrationService`
  status endpoint (src/src/mcp-servers/src/services/orchestration.service.ts),

followed by theorems settling the specification claims about them.

Modelling conventions:

* JavaScript strings are Lean `String`s; `toLowerCase` is modelled as a
  per-character ASCII lowering (`lowerStr`), `String.prototype.includes`
  as substring containment on character lists (`strIncludes`), and
  `substring(0, 4)` as `strTake4`.
* JavaScript objects (`Record<string, any>`) are association lists in
  insertion order with unique keys; property read is `recLookup`
  (first match), property assignment is `recSet` (overwrite in place or
  append), and object spread `{...a, ...b}` is `recSpread`.
* Arbitrary JSON-like values (`any`) are the inductive `JsVal`.
* Number literals such as the confidence constants 1.0 / 0.9 / 0.85 /
  0.8 / 0.7 are exact rationals (`ℚ`), written as explicit reduced
  fractions `conf1`, `conf09`, `conf085`, `conf08`, `conf07`.
* Fallible external adapter calls are abstracted by `StageResult`:
  a call either returns a successful payload, returns a structured
  failure `WfResult`, or throws (modelled as `.thrown msg`).
* Wall-clock artefacts (`Date.now()`, `toISOString()`) are modelled as
  explicit parameters or an opaque placeholder string.
-/

/-! ## String primitives (JS `toLowerCase`, `includes`, `substring(0,4)`) -/

/-- ASCII lowering of one character, as JS `toLowerCase` acts on ASCII. -/
def lowerChar (c : Char) : Char :=
  if c.toNat ≥ 65 && c.toNat ≤ 90 then Char.ofNat (c.toNat + 32) else c

/-- `s.toLowerCase()` on ASCII strings. -/
def lowerStr (s : String) : String := ⟨s.data.map lowerChar⟩

/-- Whether the first list is an initial segment of the second. -/
def charsStartWith : List Char → List Char → Bool
  | [], _ => true
  | _ :: _, [] => false
  | a :: as, b :: bs => a == b && charsStartWith as bs

/-- Whether `n` occurs as a contiguous sublist of `h`. -/
def charsIncludes (n : List Char) : List Char → Bool
  | [] => charsStartWith n []
  | c :: hs => charsStartWith n (c :: hs) || charsIncludes n hs

/-- `h.includes(n)` for JS strings. -/
def strIncludes (h n : String) : Bool := charsIncludes n.data h.data

/-- `s.substring(0, 4)` for JS strings. -/
def strTake4 (s : String) : String := ⟨s.data.take 4⟩

/-! ## The confidence constants of `mapFields`, as exact rationals -/

/-- The tier-1 confidence literal `1.0`. -/
def conf1 : ℚ := ⟨1, 1, by decide, by decide⟩

/-- The tier-2 confidence literal `0.9`. -/
def conf09 : ℚ := ⟨9, 10, by decide, by decide⟩

/-- The tier-3 confidence literal `0.85`. -/
def conf085 : ℚ := ⟨17, 20, by decide, by decide⟩

/-- The tier-4 confidence literal `0.8`. -/
def conf08 : ℚ := ⟨4, 5, by decide, by decide⟩

/-- The tier-5 confidence literal `0.7`, also the service default threshold. -/
def conf07 : ℚ := ⟨7, 10, by decide, by decide⟩

/-! ## Field mapper (`FieldMappingService.mapFields`, src/unnamed/part_004)

Donor data `Record<string, any>` is an association list `List (String × α)`
(in JS property insertion order, keys unique); `donorData[k] !== undefined`
is `dlookup d k ≠ none`.  Values are a type parameter `α` since the source
stores `any`. -/

/-- One entry of the `formFields` request array: `{name, type, description}`. -/
structure FormField where
  name : String
  fieldType : String
  description : String
deriving DecidableEq

/-- One element of the `MappingResult[]` returned by `mapFields`:
`{fieldName, value, confidence, source}`. -/
structure MappingResult (α : Type) where
  fieldName : String
  value : α
  confidence : ℚ
  source : String
deriving DecidableEq

/-- JS property read `d[k]` on an object given in insertion order. -/
def dlookup {α : Type} (d : List (String × α)) (k : String) : Option α :=
  (d.find? (fun p => p.1 == k)).map (·.2)

/-- The `commonFieldMappings` alias table of `mapFields`, in source order. -/
def commonFieldMappings : List (String × List String) :=
  [("firstName", ["first_name", "first", "fname", "givenname", "given_name"]),
   ("lastName", ["last_name", "last", "lname", "surname", "family_name", "familyname"]),
   ("fullName", ["full_name", "name", "fullname", "complete_name", "completename"]),
   ("dateOfBirth", ["dob", "date_of_birth", "birthdate", "birth_date"]),
   ("address", ["street_address", "streetaddress", "addr", "street", "residence"]),
   ("addressLine1", ["address_line_1", "address1", "addr1", "street1"]),
   ("addressLine2", ["address_line_2", "address2", "addr2", "street2", "apt", "unit"]),
   ("city", ["city_name", "cityname", "town", "municipality"]),
   ("state", ["state_name", "statename", "province", "region"]),
   ("zipCode", ["zip", "zip_code", "postal", "postal_code", "postalcode"]),
   ("phoneNumber", ["phone", "telephone", "phone_number", "tel", "mobile", "cell"]),
   ("email", ["email_address", "emailaddress", "mail", "e-mail"]),
   ("ssn", ["social_security", "social_security_number", "socialsecurity", "social"]),
   ("driversLicense", ["drivers_license", "dl_number", "license_number", "licensenumber"]),
   ("gender", ["sex", "gender_identity"]),
   ("birthPlace", ["place_of_birth", "birth_place", "birthcity", "birth_city"])]

/-- The field-name side of the alias test, used in tiers 2 and 3:
`formVariations.some(v => lcFieldName.includes(v)) ||
 lcFieldName.includes(donorKey.toLowerCase())`. -/
def fieldVariationMatch (lcFieldName donorKey : String) (vars : List String) : Bool :=
  vars.any (fun v => strIncludes lcFieldName v) || strIncludes lcFieldName (lowerStr donorKey)

/-- The donor-key side of the alias test, used in tier 3:
`formVariations.some(v => donorField.toLowerCase().includes(v)) ||
 donorField.toLowerCase().includes(donorKey.toLowerCase())`. -/
def donorFieldVariationMatch (donorField donorKey : String) (vars : List String) : Bool :=
  vars.any (fun v => strIncludes (lowerStr donorField) v) ||
    strIncludes (lowerStr donorField) (lowerStr donorKey)

/-- Tier 2 of `mapFields` ("From donor data keys to form fields"): the first
alias-table entry whose donor key is present in the donor data and whose
variations match the field name yields confidence 0.9. -/
def tier2 {α : Type} (d : List (String × α)) (fieldName lcFieldName : String) :
    List (String × List String) → Option (MappingResult α)
  | [] => none
  | (donorKey, vars) :: rest =>
    match dlookup d donorKey with
    | some v =>
      if fieldVariationMatch lcFieldName donorKey vars then
        some ⟨fieldName, v, conf09, donorKey⟩
      else tier2 d fieldName lcFieldName rest
    | none => tier2 d fieldName lcFieldName rest

/-- Inner loop of tier 3 of `mapFields`: scan the donor-data entries for one
alias-table row.  The source breaks out only when both sides match; when only
the donor side matches it keeps scanning. -/
def tier3Inner {α : Type} (donorKey : String) (vars : List String)
    (fieldName lcFieldName : String) : List (String × α) → Option (MappingResult α)
  | [] => none
  | (donorField, value) :: rest =>
    if donorFieldVariationMatch donorField donorKey vars then
      if fieldVariationMatch lcFieldName donorKey vars then
        some ⟨fieldName, value, conf085, donorField⟩
      else tier3Inner donorKey vars fieldName lcFieldName rest
    else tier3Inner donorKey vars fieldName lcFieldName rest

/-- Tier 3 of `mapFields` ("From form fields to donor data"), confidence 0.85. -/
def tier3 {α : Type} (d : List (String × α)) (fieldName lcFieldName : String) :
    List (String × List String) → Option (MappingResult α)
  | [] => none
  | (donorKey, vars) :: rest =>
    match tier3Inner donorKey vars fieldName lcFieldName d with
    | some r => some r
    | none => tier3 d fieldName lcFieldName rest

/-- The tier-4 test of `mapFields`: `fieldDesc.includes(donorKey.toLowerCase())`
(where `fieldDesc` is the already lower-cased description). -/
def descContainsKey (fieldDesc donorKey : String) : Bool :=
  strIncludes fieldDesc (lowerStr donorKey)

/-- The tier-5 test of `mapFields`: both lower-cased strings have length ≥ 4
and the lower-cased field name contains the first four characters of the
lower-cased donor key, or conversely. -/
def weakOverlapMatch (lcFieldName donorKey : String) : Bool :=
  let donorKeyLower := lowerStr donorKey
  decide (lcFieldName.length ≥ 4) && decide (donorKeyLower.length ≥ 4) &&
    (strIncludes lcFieldName (strTake4 donorKeyLower) ||
     strIncludes donorKeyLower (strTake4 lcFieldName))

/-- The final loop of `mapFields` ("Try fuzzy matching based on descriptions"):
for each donor entry in insertion order, first the description-substring test
(confidence 0.8), else the weak-overlap test (confidence 0.7); the first donor
entry passing either test ends the scan. -/
def tier45 {α : Type} (fieldName fieldDesc lcFieldName : String) :
    List (String × α) → Option (MappingResult α)
  | [] => none
  | (donorKey, value) :: rest =>
    if descContainsKey fieldDesc donorKey then
      some ⟨fieldName, value, conf08, donorKey⟩
    else if weakOverlapMatch lcFieldName donorKey then
      some ⟨fieldName, value, conf07, donorKey⟩
    else tier45 fieldName fieldDesc lcFieldName rest

/-- The per-field body of the `for (const formField of formFields)` loop of
`mapFields`, parametrised by the alias table (the source fixes it to
`commonFieldMappings`).  Produces at most one result per form field. -/
def mapFieldWith {α : Type} (table : List (String × List String))
    (d : List (String × α)) (f : FormField) : Option (MappingResult α) :=
  let fieldName := f.name
  let fieldDesc := lowerStr f.description
  let lcFieldName := lowerStr fieldName
  match dlookup d fieldName with
  | some v => some ⟨fieldName, v, conf1, fieldName⟩
  | none =>
    match tier2 d fieldName lcFieldName table with
    | some r => some r
    | none =>
      match tier3 d fieldName lcFieldName table with
      | some r => some r
      | none => tier45 fieldName fieldDesc lcFieldName d

/-- `mapFields` with an explicit alias table: the per-field results, then the
final `results.filter(result => result.confidence >= confidenceThreshold)`. -/
def mapFieldsWith {α : Type} (table : List (String × List String))
    (formFields : List FormField) (d : List (String × α))
    (confidenceThreshold : ℚ) : List (MappingResult α) :=
  (formFields.filterMap (mapFieldWith table d)).filter
    (fun r => decide (confidenceThreshold ≤ r.confidence))

/-- `FieldMappingService.mapFields(formFields, donorData, confidenceThreshold)`. -/
def mapFields {α : Type} (formFields : List FormField) (d : List (String × α))
    (confidenceThreshold : ℚ) : List (MappingResult α) :=
  mapFieldsWith commonFieldMappings formFields d confidenceThreshold

/-- The threshold actually applied by `mapFieldsHandler`:
`request.confidence || this.confidenceThreshold`, where the constructor sets
`this.confidenceThreshold = 0.7` and `||` falls through on the falsy number 0
(an absent `confidence` is `none`). -/
def appliedConfidenceThreshold (requestConfidence : Option ℚ) : ℚ :=
  match requestConfidence with
  | some c => if c = 0 then conf07 else c
  | none => conf07

/-! ## JS objects: insertion-ordered records with unique keys -/

/-- JS property read `o[k]`: value of the first (unique) entry with key `k`. -/
def recLookup {α : Type} (o : List (String × α)) (k : String) : Option α :=
  (o.find? (fun p => p.1 == k)).map (·.2)

/-- JS property assignment `o[k] = v`: overwrite in place when the key
exists, append otherwise. -/
def recSet {α : Type} (o : List (String × α)) (k : String) (v : α) :
    List (String × α) :=
  if o.any (fun p => p.1 == k) then
    o.map (fun p => if p.1 == k then (k, v) else p)
  else o ++ [(k, v)]

/-- JS object spread `{...a, ...b}`: assign each property of `b` over `a`
in `b`'s insertion order (colliding keys resolve last-write-wins). -/
def recSpread {α : Type} (a b : List (String × α)) : List (String × α) :=
  b.foldl (fun acc p => recSet acc p.1 p.2) a

/-! ## JSON-like values (`any`) and workflow data model -/

/-- A JSON-like runtime value, for the untyped `data` payloads. -/
inductive JsVal where
  | null
  | bool (b : Bool)
  | str (s : String)
  | num (q : ℚ)
  | arr (elems : List JsVal)
  | obj (fields : List (String × JsVal))

/-- A JS object of `JsVal` properties. -/
abbrev JsObj := List (String × JsVal)

/-- The `WorkflowResult` interface of the orchestrators:
`{status: 'success'|'failure', message, data?, error?}` (`success = true`
stands for `status: 'success'`). -/
structure WfResult where
  success : Bool
  message : String
  data : Option JsVal := none
  error : Option String := none

/-- Outcome of awaiting one external adapter call: a successful payload, a
structured failure (`status: 'failure'` `WorkflowResult`), or a thrown
error with its message. -/
inductive StageResult (α : Type) where
  | ok (value : α)
  | failed (r : WfResult)
  | thrown (msg : String)

/-- Whether a donor-document extraction outcome has `status === 'success'`. -/
def donorStatusSuccess {α : Type} : StageResult α → Bool
  | .ok _ => true
  | .failed _ => false
  | .thrown _ => false

/-- A form field rendered back to a JSON value (as the extractor returns it). -/
def FormField.toJs (f : FormField) : JsVal :=
  .obj [("name", .str f.name), ("type", .str f.fieldType),
        ("description", .str f.description)]

/-- The payload of a successful `/map-fields` response as consumed by the
orchestrator: `mappedFields` as `(fieldName, value)` pairs, plus the
unmapped lists and the echoed threshold. -/
structure MappingPayload where
  mappedFields : List (String × JsVal)
  unmappedFormFields : List FormField
  unmappedDonorFields : List String
  confidenceThreshold : ℚ

/-- `mappedFields` rendered back to a JSON array of `{fieldName, value}`. -/
def mappedFieldsToJs (l : List (String × JsVal)) : JsVal :=
  .arr (l.map (fun p => .obj [("fieldName", .str p.1), ("value", p.2)]))

/-- The base object of a JS spread `{...x, ...}` where `x : any` may be
absent or not an object (spreading `undefined` or a non-object contributes
no string-keyed properties). -/
def spreadBase : Option JsVal → JsObj
  | some (.obj o) => o
  | _ => []

/-- Placeholder for `new Date().toISOString()` (opaque wall-clock artefact). -/
def wfTimestamp : String := "timestamp"

/-! ## `FormProcessingOrchestrator` (src/src/mcp-servers/src/index.ts) -/

/-- The `FormFillingOptions` interface. -/
structure FormFillingOptions where
  analysisProvider : Option String := none
  confidenceThreshold : Option ℚ := none
  skipEmptyFields : Option Bool := none
  allowPartial : Option Bool := none
  skipDownloadOnError : Option Bool := none

/-- The external adapters consumed by `runFormFillingWorkflow`, abstracted as
functions from the arguments the orchestrator passes to the awaited outcome:
`downloadPdf(url)`, `extractFormFields(path, provider)`,
`extractDonorData(path, provider)`, `mapFieldsToData(fields, donor, threshold)`
and `fillForm(path, formData)`. -/
structure FormEnv where
  download : String → StageResult String
  extractFields : String → Option String → StageResult (List FormField × String)
  extractDonorData : String → Option String → StageResult (JsObj × String)
  mapFields : List FormField → JsObj → Option ℚ → StageResult MappingPayload
  fillForm : String → JsObj → StageResult (String × String)

/-- The per-run slice of `this.workflowCache`: the five keys
`<id>-download`, `<id>-fields`, `<id>-donor-data`, `<id>-mapping`,
`<id>-filled-form` (the donor-data entry stores the merged record itself,
not a `WorkflowResult`). -/
structure WorkflowCache where
  download : Option WfResult := none
  fields : Option WfResult := none
  donorData : Option JsObj := none
  mapping : Option WfResult := none
  filledForm : Option WfResult := none

/-- The `WorkflowResult` built by `downloadPdf` on success. -/
def downloadSuccess (p : String) : WfResult :=
  ⟨true, "PDF downloaded successfully", some (.obj [("path", .str p)]), none⟩

/-- The `WorkflowResult` built by `extractFormFields` on success. -/
def fieldsSuccess (fields : List FormField) (provider : String) : WfResult :=
  ⟨true, "Form fields extracted successfully",
   some (.obj [("fields", .arr (fields.map FormField.toJs)),
               ("provider", .str provider)]), none⟩

/-- The `WorkflowResult` built by `mapFieldsToData` on success. -/
def mappingSuccess (m : MappingPayload) : WfResult :=
  ⟨true, "Fields mapped successfully",
   some (.obj [("mappedFields", mappedFieldsToJs m.mappedFields),
               ("unmappedFormFields", .arr (m.unmappedFormFields.map FormField.toJs)),
               ("unmappedDonorFields", .arr (m.unmappedDonorFields.map .str)),
               ("confidenceThreshold", .num m.confidenceThreshold)]), none⟩

/-- The `WorkflowResult` built by `fillForm` on success. -/
def fillSuccess (path filename : String) : WfResult :=
  ⟨true, "Form filled successfully",
   some (.obj [("filledForm", .obj [("path", .str path),
                                    ("filename", .str filename)])]), none⟩

/-- The donor-data aggregation of `runFormFillingWorkflow`:
`donorDataResults.reduce((combined, result) => result.status === 'success' &&
result.data.extractedData ? {...combined, ...result.data.extractedData} :
combined, {})`.  A successful extraction payload is an object, hence truthy. -/
def donorDataAggregate (donorDataResults : List (StageResult (JsObj × String))) :
    JsObj :=
  donorDataResults.foldl
    (fun combined r =>
      match r with
      | .ok (extractedData, _) => recSpread combined extractedData
      | _ => combined) []

/-- The successful payload of a donor-document extraction outcome, if any. -/
def okDonorData : StageResult (JsObj × String) → Option JsObj
  | .ok (d, _) => some d
  | _ => none

/-- `FormProcessingOrchestrator.runFormFillingWorkflow(pdfFormUrl,
donorDocumentPaths, options)`: the terminal `WorkflowResult` together with
the run's cache writes.  Transcribed stage by stage from the source; the
`catch` of each awaited stage is the `.thrown` case of its `StageResult`. -/
def runFormFillingWorkflow (env : FormEnv) (pdfFormUrl : String)
    (donorDocumentPaths : List String) (options : Option FormFillingOptions) :
    WfResult × WorkflowCache :=
  let skipDownloadOnError :=
    (options.bind FormFillingOptions.skipDownloadOnError).getD true
  match env.download pdfFormUrl with
  | .thrown e => (⟨false, "Form download failed", none, some e⟩, {})
  | .failed r => (r, {})
  | .ok formPath =>
    let cache1 : WorkflowCache := { download := some (downloadSuccess formPath) }
    let analysisProvider := options.bind FormFillingOptions.analysisProvider
    match env.extractFields formPath analysisProvider with
    | .thrown e =>
      (⟨false, "Field extraction failed",
        some (.obj [("formPath",
          if skipDownloadOnError then .null else .str formPath)]), some e⟩, cache1)
    | .failed r =>
      ({ r with data := some (.obj [("formPath",
          if skipDownloadOnError then .null else .str formPath)]) }, cache1)
    | .ok (formFields, provider) =>
      let cache2 := { cache1 with fields := some (fieldsSuccess formFields provider) }
      let donorDataResults :=
        donorDocumentPaths.map (fun p => env.extractDonorData p analysisProvider)
      let allDonorExtrationsFailed :=
        donorDataResults.all (fun r => !donorStatusSuccess r)
      if allDonorExtrationsFailed && decide (donorDocumentPaths.length > 0) then
        (⟨false, "All donor data extractions failed",
          some (.obj [("formPath",
              if skipDownloadOnError then .null else .str formPath),
            ("fields", .arr (formFields.map FormField.toJs))]),
          some "Failed to extract data from any donor documents"⟩, cache2)
      else
        let donorData := donorDataAggregate donorDataResults
        let cache3 := { cache2 with donorData := some donorData }
        match env.mapFields formFields donorData
            (options.bind FormFillingOptions.confidenceThreshold) with
        | .thrown e =>
          (⟨false, "Field mapping failed",
            some (.obj [("formPath",
                if skipDownloadOnError then .null else .str formPath),
              ("fields", .arr (formFields.map FormField.toJs)),
              ("donorData",
                if donorData.length > 0 then .obj donorData else .null)]),
            some e⟩, cache3)
        | .failed r =>
          ({ r with data := some (.obj (recSet (spreadBase r.data) "formPath"
              (if skipDownloadOnError then .null else .str formPath))) }, cache3)
        | .ok mp =>
          let mappedFields := mp.mappedFields
          let formData :=
            mappedFields.foldl (fun data p => recSet data p.1 p.2) []
          let cache4 := { cache3 with mapping := some (mappingSuccess mp) }
          match env.fillForm formPath formData with
          | .thrown e =>
            (⟨false, "Form filling failed",
              some (.obj [("formPath",
                  if skipDownloadOnError then .null else .str formPath),
                ("mappedFields", mappedFieldsToJs mappedFields)]), some e⟩, cache4)
          | .failed r =>
            ({ r with data := some (.obj (recSet
                (recSet (spreadBase r.data) "formPath"
                  (if skipDownloadOnError then .null else .str formPath))
                "mappedFields" (mappedFieldsToJs mappedFields))) }, cache4)
          | .ok (filledPath, filledName) =>
            let cache5 :=
              { cache4 with filledForm := some (fillSuccess filledPath filledName) }
            (⟨true, "Form filling workflow completed successfully",
              some (.obj [("originalFormPath", .str formPath),
                ("filledFormPath", .str filledPath),
                ("filledFormFilename", .str filledName),
                ("extractedFields", .num formFields.length),
                ("mappedFields", .num mappedFields.length),
                ("unmappedFields", .num mp.unmappedFormFields.length),
                ("donorDataFields", .num donorData.length),
                ("timestamp", .str wfTimestamp)]), none⟩, cache5)

/-- The aggregate returned by `FormProcessingOrchestrator.getWorkflowResult`
when all three required cache entries are present. -/
structure WorkflowAggregate where
  download : WfResult
  fields : WfResult
  donorData : Option JsObj
  mapping : Option WfResult
  filledForm : WfResult

/-- `FormProcessingOrchestrator.getWorkflowResult(workflowId)`: `null` unless
the download, fields and filled-form entries are all cached; the donor-data
and mapping entries are passed through unchecked. -/
def getFormWorkflowResult (c : WorkflowCache) : Option WorkflowAggregate :=
  match c.download, c.fields, c.filledForm with
  | some d, some f, some ff => some ⟨d, f, c.donorData, c.mapping, ff⟩
  | _, _, _ => none

/-- The `formPath` property of a result's `data` payload, when present. -/
def dataFormPath (r : WfResult) : Option JsVal :=
  r.data.bind (fun d =>
    match d with
    | .obj o => recLookup o "formPath"
    | _ => none)

/-! ## `WorkflowOrchestrator` (src/unnamed/part_002) and the
`OrchestrationService` status endpoint
(src/src/mcp-servers/src/services/orchestration.service.ts) -/

/-- Options of `runPdfAnalysisWorkflow`. -/
structure PdfOptions where
  analysisProvider : Option String := none
  filename : Option String := none
  skipDownloadOnError : Option Bool := none

/-- The external adapters consumed by `runPdfAnalysisWorkflow`:
`downloadPdf(url, filename)` and `extractFormFields(path, provider)`. -/
structure PdfEnv where
  download : String → Option String → StageResult String
  extractFields : String → Option String → StageResult (List FormField × String)

/-- The internal run id generated by `runPdfAnalysisWorkflow`:
`` `workflow-${Date.now()}` `` with the clock reading passed explicitly. -/
def orchestratorWorkflowId (t : Nat) : String := "workflow-" ++ toString t

/-- The run id generated by `OrchestrationService.startPdfAnalysisWorkflow`:
`` `pdf-analysis-${Date.now()}` ``. -/
def serviceWorkflowId (t : Nat) : String := "pdf-analysis-" ++ toString t

/-- `WorkflowOrchestrator.runPdfAnalysisWorkflow(pdfUrl, options)`: the
terminal `WorkflowResult` and the final `workflowCache` contents (a string
keyed map, written via `Map.set`).  `t` is the `Date.now()` reading used for
the internal workflow id. -/
def runPdfAnalysisWorkflow (env : PdfEnv) (pdfUrl : String)
    (options : Option PdfOptions) (t : Nat) :
    WfResult × List (String × WfResult) :=
  let workflowId := orchestratorWorkflowId t
  let skipDownloadOnError :=
    (options.bind PdfOptions.skipDownloadOnError).getD true
  match env.download pdfUrl (options.bind PdfOptions.filename) with
  | .thrown e => (⟨false, "PDF download failed", none, some e⟩, [])
  | .failed r => (r, [])
  | .ok pdfPath =>
    let cache1 := recSet [] (workflowId ++ "-download") (downloadSuccess pdfPath)
    match env.extractFields pdfPath (options.bind PdfOptions.analysisProvider) with
    | .thrown e =>
      (⟨false, "Field extraction failed",
        some (.obj [("pdfPath",
          if skipDownloadOnError then .null else .str pdfPath)]), some e⟩, cache1)
    | .failed r =>
      ({ r with data := some (.obj [("pdfPath",
          if skipDownloadOnError then .null else .str pdfPath)]) }, cache1)
    | .ok (fields, provider) =>
      let cache2 := recSet cache1 (workflowId ++ "-extraction")
        (fieldsSuccess fields provider)
      (⟨true, "PDF analysis workflow completed successfully",
        some (.obj [("pdfPath", .str pdfPath),
          ("fields", .arr (fields.map FormField.toJs)),
          ("provider", .str provider),
          ("timestamp", .str wfTimestamp)]), none⟩, cache2)

/-- `WorkflowOrchestrator.getWorkflowResult(workflowId)`: `null` unless both
the `-download` and `-extraction` entries are cached under that id. -/
def pdfGetWorkflowResult (cache : List (String × WfResult))
    (workflowId : String) : Option (WfResult × WfResult) :=
  match recLookup cache (workflowId ++ "-download"),
        recLookup cache (workflowId ++ "-extraction") with
  | some d, some e => some (d, e)
  | _, _ => none

/-- The body of the terminal-status reply of
`OrchestrationService.getWorkflowStatus`: the registry status plus, when the
status is not `'running'`, the orchestrator's cached result for the queried
workflow id. -/
structure StatusResponse where
  status : String
  result : Option (WfResult × WfResult)

/-- `OrchestrationService.getWorkflowStatus` for a registered run: when the
registry status is terminal (not `'running'`) the reply carries
`orchestrator.getWorkflowResult(workflowId)` for the service's own id;
while running it carries no result. -/
def getWorkflowStatusModel (registryStatus : String)
    (cache : List (String × WfResult)) (workflowId : String) : StatusResponse :=
  if registryStatus ≠ "running" then
    ⟨registryStatus, pdfGetWorkflowResult cache workflowId⟩
  else
    ⟨registryStatus, none⟩

/-! ## The confidence constants as ordinary fraction literals -/

theorem conf1_eq : conf1 = 1 := by
  unfold conf1; rw [Rat.mk'_eq_divInt, Rat.divInt_eq_div]; norm_num

theorem conf09_eq : conf09 = 9/10 := by
  unfold conf09; rw [Rat.mk'_eq_divInt, Rat.divInt_eq_div]; norm_num

theorem conf085_eq : conf085 = 85/100 := by
  unfold conf085; rw [Rat.mk'_eq_divInt, Rat.divInt_eq_div]; norm_num

theorem conf08_eq : conf08 = 8/10 := by
  unfold conf08; rw [Rat.mk'_eq_divInt, Rat.divInt_eq_div]; norm_num

theorem conf07_eq : conf07 = 7/10 := by
  unfold conf07; rw [Rat.mk'_eq_divInt, Rat.divInt_eq_div]; norm_num

/-! ## Lemmas about the record operations -/

theorem recLookup_cons {α : Type} (p : String × α) (t : List (String × α))
    (k : String) :
    recLookup (p :: t) k = if p.1 == k then some p.2 else recLookup t k := by
  cases hp : p.1 == k <;> simp [recLookup, List.find?, hp]

theorem recLookup_recSet_self {α : Type} (o : List (String × α)) (k : String)
    (v : α) : recLookup (recSet o k v) k = some v := by
  unfold recSet
  by_cases h : o.any (fun p => p.1 == k) = true
  · rw [if_pos h]
    induction o with
    | nil => simp at h
    | cons p t ih =>
      by_cases hpk : p.1 = k
      · simp [List.map_cons, hpk, recLookup_cons]
      · have ht : t.any (fun p => p.1 == k) = true := by
          rcases List.any_eq_true.mp h with ⟨q, hq, hqk⟩
          have hqk' : q.1 = k := by simpa using hqk
          rcases List.mem_cons.mp hq with hq1 | hq2
          · rw [hq1] at hqk'
            exact absurd hqk' hpk
          · exact List.any_eq_true.mpr ⟨q, hq2, hqk⟩
        simpa [List.map_cons, recLookup_cons, hpk] using ih ht
  · rw [if_neg h]
    induction o with
    | nil => simp [recLookup_cons]
    | cons p t ih =>
      have hpk : p.1 ≠ k := by
        intro hpk
        exact h (List.any_eq_true.mpr ⟨p, List.mem_cons_self p t, by simpa using hpk⟩)
      have ht : ¬ t.any (fun p => p.1 == k) = true := by
        intro ht
        rcases List.any_eq_true.mp ht with ⟨q, hq, hqk⟩
        exact h (List.any_eq_true.mpr ⟨q, List.mem_cons_of_mem p hq, hqk⟩)
      simpa [List.cons_append, recLookup_cons, hpk] using ih ht

theorem recLookup_recSet_ne {α : Type} (o : List (String × α)) (k' k : String)
    (v : α) (hne : k' ≠ k) : recLookup (recSet o k' v) k = recLookup o k := by
  unfold recSet
  by_cases h : o.any (fun p => p.1 == k') = true
  · rw [if_pos h]
    clear h
    induction o with
    | nil => rfl
    | cons p t ih =>
      by_cases hpk : p.1 = k'
      · simpa [List.map_cons, hpk, recLookup_cons, hne, Ne.symm hne] using ih
      · by_cases hqk : p.1 = k
        · simp [List.map_cons, hpk, recLookup_cons, hqk, Ne.symm hne]
        · simpa [List.map_cons, hpk, recLookup_cons, hqk] using ih
  · rw [if_neg h]
    clear h
    induction o with
    | nil => simp [recLookup_cons, recLookup, hne, Ne.symm hne]
    | cons p t ih =>
      by_cases hpk : p.1 = k
      · simp [List.cons_append, recLookup_cons, hpk]
      · simp [List.cons_append, recLookup_cons, hpk, ih]

theorem recSpread_nil {α : Type} (a : List (String × α)) : recSpread a [] = a := rfl

theorem recSpread_cons {α : Type} (a : List (String × α)) (p : String × α)
    (t : List (String × α)) :
    recSpread a (p :: t) = recSpread (recSet a p.1 p.2) t := rfl

theorem recLookup_recSpread_of_not_mem {α : Type} (b : List (String × α))
    (a : List (String × α)) (k : String) (h : ∀ p ∈ b, p.1 ≠ k) :
    recLookup (recSpread a b) k = recLookup a k := by
  induction b generalizing a with
  | nil => rfl
  | cons p t ih =>
    rw [recSpread_cons, ih _ (fun q hq => h q (List.mem_cons_of_mem p hq)),
      recLookup_recSet_ne _ _ _ _ (h p (List.mem_cons_self p t))]

theorem recLookup_recSpread_right {α : Type} (b : List (String × α))
    (a : List (String × α)) (k : String) (v : α)
    (hnd : (b.map Prod.fst).Nodup) (hb : recLookup b k = some v) :
    recLookup (recSpread a b) k = some v := by
  induction b generalizing a with
  | nil => simp [recLookup] at hb
  | cons p t ih =>
    have hnd' : (t.map Prod.fst).Nodup := (List.nodup_cons.mp hnd).2
    have hmem : p.1 ∉ t.map Prod.fst := (List.nodup_cons.mp hnd).1
    rw [recLookup_cons] at hb
    by_cases hpk : p.1 = k
    · rw [if_pos (by simpa using hpk)] at hb
      have hnott : ∀ q ∈ t, q.1 ≠ k := by
        intro q hq hqk
        exact hmem (hpk ▸ hqk ▸ List.mem_map_of_mem Prod.fst hq)
      rw [recSpread_cons, recLookup_recSpread_of_not_mem t _ k hnott, hpk,
        recLookup_recSet_self]
      exact hb
    · rw [if_neg (by simpa using hpk)] at hb
      rw [recSpread_cons]
      exact ih (recSet a p.1 p.2) hnd' hb

theorem donorDataAggregate_go (rs : List (StageResult (JsObj × String)))
    (acc : JsObj) :
    rs.foldl (fun combined r =>
      match r with
      | .ok (extractedData, _) => recSpread combined extractedData
      | _ => combined) acc =
    (rs.filterMap okDonorData).foldl recSpread acc := by
  induction rs generalizing acc with
  | nil => rfl
  | cons r t ih =>
    cases r with
    | ok v => cases v with
      | mk d p => simp [List.foldl_cons, List.filterMap_cons, okDonorData, ih]
    | failed r' => simp [List.foldl_cons, List.filterMap_cons, okDonorData, ih]
    | thrown m => simp [List.foldl_cons, List.filterMap_cons, okDonorData, ih]

/-- Aggregation equals the left-to-right spread union of the successful
per-document records. -/
theorem donorDataAggregate_eq_union (rs : List (StageResult (JsObj × String))) :
    donorDataAggregate rs = (rs.filterMap okDonorData).foldl recSpread [] :=
  donorDataAggregate_go rs []

/-! ## Inversion lemmas for the mapper tiers -/

theorem tier2_inv {α : Type} {d : List (String × α)} {fieldName lcFieldName : String}
    {table : List (String × List String)} {r : MappingResult α}
    (h : tier2 d fieldName lcFieldName table = some r) :
    ∃ donorKey vars v, (donorKey, vars) ∈ table ∧ dlookup d donorKey = some v ∧
      fieldVariationMatch lcFieldName donorKey vars = true ∧
      r = ⟨fieldName, v, conf09, donorKey⟩ := by
  induction table with
  | nil => simp [tier2] at h
  | cons p rest ih =>
    obtain ⟨donorKey, vars⟩ := p
    unfold tier2 at h
    split at h
    next v heq =>
      split at h
      next hm =>
        exact ⟨donorKey, vars, v, List.mem_cons_self _ _, heq, hm,
          (Option.some.inj h).symm⟩
      next hm =>
        rcases ih h with ⟨dk, vs, v', hmem, h2, h3, h4⟩
        exact ⟨dk, vs, v', List.mem_cons_of_mem _ hmem, h2, h3, h4⟩
    next heq =>
      rcases ih h with ⟨dk, vs, v', hmem, h2, h3, h4⟩
      exact ⟨dk, vs, v', List.mem_cons_of_mem _ hmem, h2, h3, h4⟩

theorem tier3Inner_inv {α : Type} {donorKey : String} {vars : List String}
    {fieldName lcFieldName : String} {d : List (String × α)} {r : MappingResult α}
    (h : tier3Inner donorKey vars fieldName lcFieldName d = some r) :
    ∃ donorField value, (donorField, value) ∈ d ∧
      donorFieldVariationMatch donorField donorKey vars = true ∧
      fieldVariationMatch lcFieldName donorKey vars = true ∧
      r = ⟨fieldName, value, conf085, donorField⟩ := by
  induction d with
  | nil => simp [tier3Inner] at h
  | cons p rest ih =>
    obtain ⟨donorField, value⟩ := p
    unfold tier3Inner at h
    split at h
    next hd =>
      split at h
      next hf =>
        exact ⟨donorField, value, List.mem_cons_self _ _, hd, hf,
          (Option.some.inj h).symm⟩
      next hf =>
        rcases ih h with ⟨df, val, hmem, h2, h3, h4⟩
        exact ⟨df, val, List.mem_cons_of_mem _ hmem, h2, h3, h4⟩
    next hd =>
      rcases ih h with ⟨df, val, hmem, h2, h3, h4⟩
      exact ⟨df, val, List.mem_cons_of_mem _ hmem, h2, h3, h4⟩

theorem tier3_inv {α : Type} {d : List (String × α)} {fieldName lcFieldName : String}
    {table : List (String × List String)} {r : MappingResult α}
    (h : tier3 d fieldName lcFieldName table = some r) :
    r.confidence = conf085 := by
  induction table with
  | nil => simp [tier3] at h
  | cons p rest ih =>
    obtain ⟨donorKey, vars⟩ := p
    unfold tier3 at h
    split at h
    next r' heq =>
      rcases tier3Inner_inv heq with ⟨df, val, _, _, _, h4⟩
      rw [← Option.some.inj h, h4]
    next heq => exact ih h

theorem tier45_inv {α : Type} {fieldName fieldDesc lcFieldName : String}
    {d : List (String × α)} {r : MappingResult α}
    (h : tier45 fieldName fieldDesc lcFieldName d = some r) :
    ∃ donorKey value, (donorKey, value) ∈ d ∧
      ((descContainsKey fieldDesc donorKey = true ∧
        r = ⟨fieldName, value, conf08, donorKey⟩) ∨
       (descContainsKey fieldDesc donorKey = false ∧
        weakOverlapMatch lcFieldName donorKey = true ∧
        r = ⟨fieldName, value, conf07, donorKey⟩)) := by
  induction d with
  | nil => simp [tier45] at h
  | cons p rest ih =>
    obtain ⟨donorKey, value⟩ := p
    unfold tier45 at h
    split at h
    next hdesc =>
      exact ⟨donorKey, value, List.mem_cons_self _ _,
        Or.inl ⟨hdesc, (Option.some.inj h).symm⟩⟩
    next hdesc =>
      split at h
      next hov =>
        exact ⟨donorKey, value, List.mem_cons_self _ _,
          Or.inr ⟨by simpa using hdesc, hov, (Option.some.inj h).symm⟩⟩
      next hov =>
        rcases ih h with ⟨dk, val, hmem, hres⟩
        exact ⟨dk, val, List.mem_cons_of_mem _ hmem, hres⟩

theorem tier45_append {α : Type} (fieldName fieldDesc lcFieldName : String)
    (d₁ rest : List (String × α))
    (h : ∀ p ∈ d₁, descContainsKey fieldDesc p.1 = false ∧
      weakOverlapMatch lcFieldName p.1 = false) :
    tier45 fieldName fieldDesc lcFieldName (d₁ ++ rest) =
      tier45 fieldName fieldDesc lcFieldName rest := by
  induction d₁ with
  | nil => rfl
  | cons p t ih =>
    obtain ⟨k, v⟩ := p
    have hp := h (k, v) (List.mem_cons_self _ _)
    rw [List.cons_append]
    simp only [tier45, hp.1, hp.2, Bool.false_eq_true, if_false]
    simpa only [tier45] using ih (fun q hq => h q (List.mem_cons_of_mem _ hq))

theorem mapFieldWith_exact {α : Type} (table : List (String × List String))
    (d : List (String × α)) (f : FormField) (v : α)
    (h : dlookup d f.name = some v) :
    mapFieldWith table d f = some ⟨f.name, v, conf1, f.name⟩ := by
  simp only [mapFieldWith, h]

theorem mapFieldWith_tier45 {α : Type} {table : List (String × List String)}
    {d : List (String × α)} {f : FormField}
    (h1 : dlookup d f.name = none)
    (h2 : tier2 d f.name (lowerStr f.name) table = none)
    (h3 : tier3 d f.name (lowerStr f.name) table = none) :
    mapFieldWith table d f =
      tier45 f.name (lowerStr f.description) (lowerStr f.name) d := by
  simp only [mapFieldWith, h1, h2, h3]

theorem mapFieldWith_conf {α : Type} {table : List (String × List String)}
    {d : List (String × α)} {f : FormField} {r : MappingResult α}
    (h : mapFieldWith table d f = some r) :
    r.confidence = conf1 ∨ r.confidence = conf09 ∨ r.confidence = conf085 ∨
      r.confidence = conf08 ∨ r.confidence = conf07 := by
  simp only [mapFieldWith] at h
  split at h
  next v heq =>
    cases Option.some.inj h
    exact Or.inl rfl
  next heq =>
    split at h
    next r2 heq2 =>
      cases Option.some.inj h
      rcases tier2_inv heq2 with ⟨dk, vs, v, _, _, _, hr⟩
      rw [hr]
      exact Or.inr (Or.inl rfl)
    next heq2 =>
      split at h
      next r3 heq3 =>
        cases Option.some.inj h
        exact Or.inr (Or.inr (Or.inl (tier3_inv heq3)))
      next heq3 =>
        rcases tier45_inv h with ⟨dk, val, _, hres | hres⟩
        · rw [hres.2]
          exact Or.inr (Or.inr (Or.inr (Or.inl rfl)))
        · rw [hres.2.2]
          exact Or.inr (Or.inr (Or.inr (Or.inr rfl)))

theorem mapFieldWith_conf07 {α : Type} {table : List (String × List String)}
    {d : List (String × α)} {f : FormField} {r : MappingResult α}
    (h : mapFieldWith table d f = some r) (hc : r.confidence = conf07) :
    ∃ value, (r.source, value) ∈ d ∧ r = ⟨f.name, value, conf07, r.source⟩ ∧
      weakOverlapMatch (lowerStr f.name) r.source = true := by
  simp only [mapFieldWith] at h
  split at h
  next v heq =>
    cases Option.some.inj h
    have hc2 : conf1 = conf07 := hc
    exact absurd hc2 (by decide)
  next heq =>
    split at h
    next r2 heq2 =>
      cases Option.some.inj h
      rcases tier2_inv heq2 with ⟨dk, vs, v, _, _, _, hr⟩
      rw [hr] at hc
      have hc2 : conf09 = conf07 := hc
      exact absurd hc2 (by decide)
    next heq2 =>
      split at h
      next r3 heq3 =>
        cases Option.some.inj h
        have hc2 : conf085 = conf07 := (tier3_inv heq3).symm.trans hc
        exact absurd hc2 (by decide)
      next heq3 =>
        rcases tier45_inv h with ⟨dk, val, hmem, hres | hres⟩
        · rw [hres.2] at hc
          have hc2 : conf08 = conf07 := hc
          exact absurd hc2 (by decide)
        · refine ⟨val, ?_, ?_, ?_⟩
          · rw [hres.2.2]
            exact hmem
          · rw [hres.2.2]
          · rw [hres.2.2]
            exact hres.2.1

theorem mem_mapFieldsWith {α : Type} {table : List (String × List String)}
    {fields : List FormField} {d : List (String × α)} {t : ℚ}
    {r : MappingResult α} :
    r ∈ mapFieldsWith table fields d t ↔
      (∃ f ∈ fields, mapFieldWith table d f = some r) ∧ t ≤ r.confidence := by
  unfold mapFieldsWith
  rw [List.mem_filter, List.mem_filterMap]
  simp [decide_eq_true_eq]

/-! ## Cache-key lemmas for the PDF-analysis workflow -/

theorem workflow_ne_pdfAnalysis_key (a b : String) :
    ("workflow-" ++ a) ≠ ("pdf-analysis-" ++ b) := by
  intro h
  have h2 : ("workflow-" ++ a).data = ("pdf-analysis-" ++ b).data := by rw [h]
  rw [String.data_append, String.data_append] at h2
  simp [show "workflow-".data = ['w','o','r','k','f','l','o','w','-'] from rfl,
    show "pdf-analysis-".data = ['p','d','f','-','a','n','a','l','y','s','i','s','-']
      from rfl] at h2

theorem orchestrator_key_ne_service_key (t₂ t₁ : Nat) (s₁ s₂ : String) :
    (orchestratorWorkflowId t₂ ++ s₁) ≠ (serviceWorkflowId t₁ ++ s₂) := by
  unfold orchestratorWorkflowId serviceWorkflowId
  rw [String.append_assoc, String.append_assoc]
  exact workflow_ne_pdfAnalysis_key _ _

theorem mem_recSet {α : Type} (o : List (String × α)) (k : String) (v : α) :
    ∀ p ∈ recSet o k v, p ∈ o ∨ p.1 = k := by
  unfold recSet
  split
  · intro p hp
    rcases List.mem_map.mp hp with ⟨q, hq, hqe⟩
    by_cases hqk : q.1 = k
    · right
      rw [← hqe]
      simp [hqk]
    · left
      rw [← hqe]
      simpa [hqk] using hq
  · intro p hp
    rcases List.mem_append.mp hp with h1 | h1
    · left
      exact h1
    · right
      simp at h1
      rw [h1]

theorem recLookup_none_of_keys {α : Type} (o : List (String × α)) (q : String)
    (h : ∀ p ∈ o, p.1 ≠ q) : recLookup o q = none := by
  unfold recLookup
  rw [List.find?_eq_none.mpr]
  · rfl
  · intro p hp
    simpa using h p hp

theorem runPdf_cache_keys (env : PdfEnv) (pdfUrl : String)
    (options : Option PdfOptions) (t₂ : Nat) :
    ∀ p ∈ (runPdfAnalysisWorkflow env pdfUrl options t₂).2,
      p.1 = orchestratorWorkflowId t₂ ++ "-download" ∨
      p.1 = orchestratorWorkflowId t₂ ++ "-extraction" := by
  unfold runPdfAnalysisWorkflow
  dsimp only
  split
  · intro p hp
    simp at hp
  · intro p hp
    simp at hp
  · split
    · intro p hp
      dsimp only at hp
      rcases mem_recSet _ _ _ p hp with h1 | h1
      · simp at h1
      · exact Or.inl h1
    · intro p hp
      dsimp only at hp
      rcases mem_recSet _ _ _ p hp with h1 | h1
      · simp at h1
      · exact Or.inl h1
    · intro p hp
      dsimp only at hp
      rcases mem_recSet _ _ _ p hp with h1 | h1
      · rcases mem_recSet _ _ _ p h1 with h2 | h2
        · simp at h2
        · exact Or.inl h2
      · exact Or.inr h1

/-! ## Case-analysis lemmas for the form-filling workflow -/

theorem runFormFillingWorkflow_filledForm (env : FormEnv) (u : String)
    (paths : List String) (opts : Option FormFillingOptions) :
    (runFormFillingWorkflow env u paths opts).1.success = true ∨
    (runFormFillingWorkflow env u paths opts).2.filledForm = none := by
  unfold runFormFillingWorkflow
  dsimp only
  split
  · exact Or.inr rfl
  · exact Or.inr rfl
  · split
    · exact Or.inr rfl
    · exact Or.inr rfl
    · split
      · exact Or.inr rfl
      · split
        · exact Or.inr rfl
        · exact Or.inr rfl
        · split
          · exact Or.inr rfl
          · exact Or.inr rfl
          · exact Or.inl rfl

theorem getFormWorkflowResult_none_of_no_filledForm (c : WorkflowCache)
    (h : c.filledForm = none) : getFormWorkflowResult c = none := by
  cases hd : c.download <;> cases hf : c.fields <;>
    simp [getFormWorkflowResult, hd, hf, h]

theorem runFormFillingWorkflow_donorData_cached (env : FormEnv) (u : String)
    (paths : List String) (opts : Option FormFillingOptions) (p : String)
    (fields : List FormField) (prov : String)
    (hd : env.download u = .ok p)
    (hf : env.extractFields p (opts.bind FormFillingOptions.analysisProvider) =
      .ok (fields, prov))
    (hcond : ¬ ((paths.map (fun q =>
        env.extractDonorData q (opts.bind FormFillingOptions.analysisProvider))).all
        (fun r => !donorStatusSuccess r) && decide (paths.length > 0)) = true) :
    (runFormFillingWorkflow env u paths opts).2.donorData =
      some (donorDataAggregate (paths.map (fun q =>
        env.extractDonorData q (opts.bind FormFillingOptions.analysisProvider)))) := by
  unfold runFormFillingWorkflow
  rw [hd]
  dsimp only
  rw [hf]
  dsimp only
  rw [if_neg hcond]
  split
  · rfl
  · rfl
  · split
    · rfl
    · rfl
    · rfl

/-! ## Claim theorems -/

/-- C7: for every form field whose name is character-identical to a key
present (with a defined value) in the donor-data record, the mapper produces
a result for that field with confidence exactly 1.0 and source key equal to
that key, independent of the contents of the alias table; at any threshold
at most 1 that result is retained. -/
theorem exact_name_match_confidence_one {α : Type}
    (table : List (String × List String)) (fields : List FormField)
    (d : List (String × α)) (f : FormField) (v : α) (t : ℚ)
    (hmem : f ∈ fields) (hv : dlookup d f.name = some v) (ht : t ≤ 1) :
    mapFieldWith table d f = some ⟨f.name, v, conf1, f.name⟩ ∧
      (⟨f.name, v, conf1, f.name⟩ : MappingResult α) ∈
        mapFieldsWith table fields d t := by
  refine ⟨mapFieldWith_exact table d f v hv, ?_⟩
  rw [mem_mapFieldsWith]
  refine ⟨⟨f, hmem, mapFieldWith_exact table d f v hv⟩, ?_⟩
  show t ≤ conf1
  rw [conf1_eq]
  exact ht

/-- Witness for C7 at a concrete input (field name `x` equal to donor key
`x`, default threshold 0.7 and the full source alias table). -/
theorem exact_name_match_confidence_one_witness :
    mapFieldWith commonFieldMappings [("x", "1")] ⟨"x", "text", ""⟩ =
      some ⟨"x", "1", conf1, "x"⟩ ∧
    (⟨"x", "1", conf1, "x"⟩ : MappingResult String) ∈
      mapFields [⟨"x", "text", ""⟩] [("x", "1")] conf07 :=
  exact_name_match_confidence_one commonFieldMappings [⟨"x", "text", ""⟩]
    [("x", "1")] ⟨"x", "text", ""⟩ "1" conf07 (List.mem_cons_self _ _) rfl
    (by decide)

/-- C8: every element of the list returned by `mapFields` has a confidence
among exactly {1.0, 0.9, 0.85, 0.8, 0.7}, and its confidence is at least the
applied threshold (results below the threshold are dropped). -/
theorem mapping_confidence_tiers {α : Type} (fields : List FormField)
    (d : List (String × α)) (t : ℚ) (r : MappingResult α)
    (h : r ∈ mapFields fields d t) :
    (r.confidence = conf1 ∨ r.confidence = conf09 ∨ r.confidence = conf085 ∨
      r.confidence = conf08 ∨ r.confidence = conf07) ∧ t ≤ r.confidence := by
  unfold mapFields at h
  rw [mem_mapFieldsWith] at h
  rcases h with ⟨⟨f, hf, hmap⟩, ht⟩
  exact ⟨mapFieldWith_conf hmap, ht⟩

/-- Witness for C8 at a concrete input (the tier-4 `ssn` description match
at the default threshold). -/
theorem mapping_confidence_tiers_witness :
    ((⟨"xyz", "123-45-6789", conf08, "ssn"⟩ : MappingResult String).confidence
        = conf1 ∨
      (⟨"xyz", "123-45-6789", conf08, "ssn"⟩ : MappingResult String).confidence
        = conf09 ∨
      (⟨"xyz", "123-45-6789", conf08, "ssn"⟩ : MappingResult String).confidence
        = conf085 ∨
      (⟨"xyz", "123-45-6789", conf08, "ssn"⟩ : MappingResult String).confidence
        = conf08 ∨
      (⟨"xyz", "123-45-6789", conf08, "ssn"⟩ : MappingResult String).confidence
        = conf07) ∧
    conf07 ≤ (⟨"xyz", "123-45-6789", conf08, "ssn"⟩ :
      MappingResult String).confidence :=
  mapping_confidence_tiers [⟨"xyz", "text", "enter client ssn here"⟩]
    [("ssn", "123-45-6789")] conf07 ⟨"xyz", "123-45-6789", conf08, "ssn"⟩
    (by rw [show mapFields [⟨"xyz", "text", "enter client ssn here"⟩]
        [("ssn", "123-45-6789")] conf07 =
        [⟨"xyz", "123-45-6789", conf08, "ssn"⟩] from rfl]
        exact List.mem_singleton_self _)

/-- C9: a request-level confidence threshold of exactly 0 falls through the
JS `||` to the constructor default 0.7 (so it is treated as if no threshold
had been supplied); tier-4 (0.8) and tier-5 (0.7) results pass the applied
threshold, and no request can make the applied threshold equal 0. -/
theorem zero_threshold_falls_back_to_default :
    appliedConfidenceThreshold (some 0) = conf07 ∧
    appliedConfidenceThreshold none = conf07 ∧
    (∀ c : Option ℚ, appliedConfidenceThreshold c ≠ 0) ∧
    appliedConfidenceThreshold (some 0) ≤ conf08 ∧
    appliedConfidenceThreshold (some 0) ≤ conf07 := by
  have h0 : appliedConfidenceThreshold (some 0) = conf07 := by
    show (if (0 : ℚ) = 0 then conf07 else 0) = conf07
    rw [if_pos rfl]
  refine ⟨h0, rfl, ?_, ?_, ?_⟩
  · intro c
    cases c with
    | none =>
      show conf07 ≠ 0
      decide
    | some v =>
      show (if v = 0 then conf07 else v) ≠ 0
      by_cases hv : v = 0
      · rw [if_pos hv]
        decide
      · rw [if_neg hv]
        exact hv
  · rw [h0]
    decide
  · rw [h0]

/-- Witness for C9: a caller passing threshold 1/2 still cannot reach an
applied threshold of 0. -/
theorem zero_threshold_falls_back_to_default_witness :
    appliedConfidenceThreshold (some ⟨1, 2, by decide, by decide⟩) ≠ 0 :=
  zero_threshold_falls_back_to_default.2.2.1 (some ⟨1, 2, by decide, by decide⟩)

/-- C2 counterexample: with donor data `{abcd: v1, ssn: v2}` and form field
`abcdef` whose description contains the donor key `ssn` verbatim, the
retained mapping has the tier-5 confidence 0.7 (sourced from `abcd`), not
0.8: an earlier donor entry passing the weak-overlap test preempts a later
entry's description match, so the result does depend on donor-key order. -/
theorem tier5_preempts_tier4_cex :
    mapFields [⟨"abcdef", "text", "enter ssn here"⟩]
      [("abcd", "v1"), ("ssn", "v2")] conf07 =
      [⟨"abcdef", "v1", conf07, "abcd"⟩] ∧
    descContainsKey (lowerStr "enter ssn here") "ssn" = true ∧
    conf07 ≠ conf08 :=
  ⟨rfl, rfl, by decide⟩

/-- C2 amended: tiers 1-3 are tried strictly in order, but tiers 4 and 5 are
interleaved over donor entries in iteration order; when no donor entry
before `k` passes either the description test or the weak-overlap test and
`k` passes the description test (and tiers 1-3 produced nothing), the
field's mapping has confidence 0.8 with source `k`, and is retained at any
threshold at most 0.8. -/
theorem desc_match_first_in_scan_conf08 {α : Type}
    (table : List (String × List String)) (fields : List FormField)
    (d₁ d₂ : List (String × α)) (k : String) (v : α) (f : FormField) (t : ℚ)
    (h1 : dlookup (d₁ ++ (k, v) :: d₂) f.name = none)
    (h2 : tier2 (d₁ ++ (k, v) :: d₂) f.name (lowerStr f.name) table = none)
    (h3 : tier3 (d₁ ++ (k, v) :: d₂) f.name (lowerStr f.name) table = none)
    (hskip : ∀ p ∈ d₁, descContainsKey (lowerStr f.description) p.1 = false ∧
      weakOverlapMatch (lowerStr f.name) p.1 = false)
    (hdesc : descContainsKey (lowerStr f.description) k = true)
    (hf : f ∈ fields) (ht : t ≤ conf08) :
    mapFieldWith table (d₁ ++ (k, v) :: d₂) f = some ⟨f.name, v, conf08, k⟩ ∧
      (⟨f.name, v, conf08, k⟩ : MappingResult α) ∈
        mapFieldsWith table fields (d₁ ++ (k, v) :: d₂) t := by
  have hmap : mapFieldWith table (d₁ ++ (k, v) :: d₂) f =
      some ⟨f.name, v, conf08, k⟩ := by
    rw [mapFieldWith_tier45 h1 h2 h3, tier45_append _ _ _ d₁ _ hskip]
    simp [tier45, hdesc]
  exact ⟨hmap, mem_mapFieldsWith.mpr ⟨⟨f, hf, hmap⟩, ht⟩⟩

/-- Witness for the amended C2 at the spec's `ssn` scenario: the description
match is the first passing donor entry and yields confidence 0.8. -/
theorem desc_match_first_in_scan_conf08_witness :
    mapFieldWith commonFieldMappings ([] ++ ("ssn", "123-45-6789") :: [])
      ⟨"xyz", "text", "enter client ssn here"⟩ =
      some ⟨"xyz", "123-45-6789", conf08, "ssn"⟩ ∧
    (⟨"xyz", "123-45-6789", conf08, "ssn"⟩ : MappingResult String) ∈
      mapFieldsWith commonFieldMappings
        [⟨"xyz", "text", "enter client ssn here"⟩]
        ([] ++ ("ssn", "123-45-6789") :: []) conf07 :=
  desc_match_first_in_scan_conf08 commonFieldMappings
    [⟨"xyz", "text", "enter client ssn here"⟩] [] [] "ssn" "123-45-6789"
    ⟨"xyz", "text", "enter client ssn here"⟩ conf07 rfl rfl rfl
    (by simp) rfl (List.mem_cons_self _ _) (by decide)

/-- C3 counterexample: donor key `abcdz` against field name `xabcd` yields a
tier-5 (0.7) mapping although the two lower-cased 4-character prefixes
(`xabc` and `abcd`) differ: the code tests substring containment of the
4-character prefix, not prefix equality. -/
theorem weak_overlap_not_prefix_equality_cex :
    mapFields [⟨"xabcd", "text", ""⟩] [("abcdz", "v")] conf07 =
      [⟨"xabcd", "v", conf07, "abcdz"⟩] ∧
    strTake4 (lowerStr "xabcd") ≠ strTake4 (lowerStr "abcdz") :=
  ⟨rfl, by decide⟩

/-- C3 amended: every mapping result with confidence 0.7 comes from a donor
entry whose key is its source, both lower-cased strings have length at least
4, and the lower-cased field name contains the first 4 characters of the
lower-cased donor key as a substring, or conversely (substring containment,
not prefix equality). -/
theorem tier5_weak_overlap_shape {α : Type} (fields : List FormField)
    (d : List (String × α)) (t : ℚ) (r : MappingResult α)
    (h : r ∈ mapFields fields d t) (hc : r.confidence = conf07) :
    ∃ f ∈ fields, r.fieldName = f.name ∧
      ∃ value, (r.source, value) ∈ d ∧ r.value = value ∧
        (lowerStr f.name).length ≥ 4 ∧ (lowerStr r.source).length ≥ 4 ∧
        (strIncludes (lowerStr f.name) (strTake4 (lowerStr r.source)) = true ∨
         strIncludes (lowerStr r.source) (strTake4 (lowerStr f.name)) = true) := by
  unfold mapFields at h
  rw [mem_mapFieldsWith] at h
  rcases h with ⟨⟨f, hf, hmap⟩, _⟩
  rcases mapFieldWith_conf07 hmap hc with ⟨value, hmem, hr, hov⟩
  simp only [weakOverlapMatch, Bool.and_eq_true, Bool.or_eq_true,
    decide_eq_true_eq] at hov
  refine ⟨f, hf, ?_, value, hmem, ?_, hov.1.1, hov.1.2, hov.2⟩
  · rw [hr]
  · rw [hr]

/-- Witness for the amended C3 at the counterexample input. -/
theorem tier5_weak_overlap_shape_witness :
    ∃ f ∈ [(⟨"xabcd", "text", ""⟩ : FormField)],
      (⟨"xabcd", "v", conf07, "abcdz"⟩ : MappingResult String).fieldName =
        f.name ∧
      ∃ value,
        ((⟨"xabcd", "v", conf07, "abcdz"⟩ : MappingResult String).source,
          value) ∈ [("abcdz", "v")] ∧
        (⟨"xabcd", "v", conf07, "abcdz"⟩ : MappingResult String).value =
          value ∧
        (lowerStr f.name).length ≥ 4 ∧
        (lowerStr (⟨"xabcd", "v", conf07, "abcdz"⟩ :
          MappingResult String).source).length ≥ 4 ∧
        (strIncludes (lowerStr f.name)
            (strTake4 (lowerStr (⟨"xabcd", "v", conf07, "abcdz"⟩ :
              MappingResult String).source)) = true ∨
         strIncludes (lowerStr (⟨"xabcd", "v", conf07, "abcdz"⟩ :
              MappingResult String).source)
            (strTake4 (lowerStr f.name)) = true) :=
  tier5_weak_overlap_shape [⟨"xabcd", "text", ""⟩] [("abcdz", "v")] conf07
    ⟨"xabcd", "v", conf07, "abcdz"⟩
    (by rw [show mapFields [⟨"xabcd", "text", ""⟩] [("abcdz", "v")] conf07 =
        [⟨"xabcd", "v", conf07, "abcdz"⟩] from rfl]
        exact List.mem_singleton_self _) rfl

/-- C4 counterexample: with `options` omitted entirely, a run whose download
succeeds and whose field extraction then fails reports `formPath: null` in
its failure response — the downloaded path is suppressed by default
(`skipDownloadOnError ?? true`), not exposed. -/
theorem formPath_suppressed_by_default_cex :
    dataFormPath (runFormFillingWorkflow
      ⟨fun _ => .ok "/forms/a.pdf",
       fun _ _ => .failed ⟨false, "Field extraction failed", none,
         some "Invalid response from AI Analysis server"⟩,
       fun _ _ => .thrown "unreached", fun _ _ _ => .thrown "unreached",
       fun _ _ => .thrown "unreached"⟩
      "http://example.com/form.pdf" [] none).1 = some JsVal.null ∧
    JsVal.null ≠ JsVal.str "/forms/a.pdf" :=
  ⟨rfl, fun h => JsVal.noConfusion h⟩

/-- C4 amended: when the download succeeds and field extraction fails
(structured failure or throw), the failure response's `formPath` is the
downloaded path exactly when `skipDownloadOnError` is explicitly `false`;
when the option is omitted (including `options` absent entirely) or `true`,
that path is `null`. -/
theorem formPath_null_unless_skip_false (env : FormEnv) (u : String)
    (paths : List String) (opts : Option FormFillingOptions) (p : String)
    (hd : env.download u = .ok p)
    (hf : (∃ r, env.extractFields p
        (opts.bind FormFillingOptions.analysisProvider) = .failed r) ∨
      (∃ e, env.extractFields p
        (opts.bind FormFillingOptions.analysisProvider) = .thrown e)) :
    dataFormPath (runFormFillingWorkflow env u paths opts).1 =
      some (if opts.bind FormFillingOptions.skipDownloadOnError = some false
        then JsVal.str p else JsVal.null) := by
  have hskip : (if (opts.bind FormFillingOptions.skipDownloadOnError).getD true
        then JsVal.null else JsVal.str p) =
      (if opts.bind FormFillingOptions.skipDownloadOnError = some false
        then JsVal.str p else JsVal.null) := by
    cases hsk : opts.bind FormFillingOptions.skipDownloadOnError with
    | none => simp
    | some b => cases b <;> simp
  unfold runFormFillingWorkflow
  rw [hd]
  dsimp only
  rcases hf with ⟨r, hr⟩ | ⟨e, he⟩
  · rw [hr]
    simp [dataFormPath, recLookup_cons, hskip]
  · rw [he]
    simp [dataFormPath, recLookup_cons, hskip]

/-- Witness for the amended C4: with `skipDownloadOnError` explicitly
`false`, the failure response carries the downloaded path. -/
theorem formPath_null_unless_skip_false_witness :
    dataFormPath (runFormFillingWorkflow
      ⟨fun _ => .ok "/forms/a.pdf",
       fun _ _ => .failed ⟨false, "Field extraction failed", none, some "x"⟩,
       fun _ _ => .thrown "unreached", fun _ _ _ => .thrown "unreached",
       fun _ _ => .thrown "unreached"⟩
      "http://example.com/form.pdf" []
      (some ⟨none, none, none, none, some false⟩)).1 =
      some (JsVal.str "/forms/a.pdf") := by
  simpa using formPath_null_unless_skip_false
    ⟨fun _ => .ok "/forms/a.pdf",
     fun _ _ => .failed ⟨false, "Field extraction failed", none, some "x"⟩,
     fun _ _ => .thrown "unreached", fun _ _ _ => .thrown "unreached",
     fun _ _ => .thrown "unreached"⟩
    "http://example.com/form.pdf" []
    (some ⟨none, none, none, none, some false⟩) "/forms/a.pdf" rfl
    (Or.inl ⟨_, rfl⟩)

/-- C5: donor-extraction failure policy of `runFormFillingWorkflow`.
(1) With at least one donor document and every extraction failed, the run
terminates with the all-fail abort (before the donor record or any mapping
output is cached, for every behaviour of the later stages).
(2) When some extraction succeeds, the run proceeds and caches the donor
record, which is exactly the left-to-right spread union of the successful
per-document records.
(3) With zero donor documents the cached donor record is empty and the
mapping stage is consulted with that empty record. -/
theorem donor_aggregation_policy :
    (∀ (env : FormEnv) (u : String) (paths : List String)
        (opts : Option FormFillingOptions) (p prov : String)
        (fields : List FormField),
      env.download u = .ok p →
      env.extractFields p (opts.bind FormFillingOptions.analysisProvider) =
        .ok (fields, prov) →
      paths ≠ [] →
      (∀ q ∈ paths, donorStatusSuccess (env.extractDonorData q
        (opts.bind FormFillingOptions.analysisProvider)) = false) →
      (runFormFillingWorkflow env u paths opts).1 =
        ⟨false, "All donor data extractions failed",
          some (.obj [("formPath",
            if (opts.bind FormFillingOptions.skipDownloadOnError).getD true
            then JsVal.null else JsVal.str p),
            ("fields", .arr (fields.map FormField.toJs))]),
          some "Failed to extract data from any donor documents"⟩ ∧
      (runFormFillingWorkflow env u paths opts).2.donorData = none ∧
      (runFormFillingWorkflow env u paths opts).2.mapping = none) ∧
    (∀ (env : FormEnv) (u : String) (paths : List String)
        (opts : Option FormFillingOptions) (p prov : String)
        (fields : List FormField),
      env.download u = .ok p →
      env.extractFields p (opts.bind FormFillingOptions.analysisProvider) =
        .ok (fields, prov) →
      (∃ q ∈ paths, donorStatusSuccess (env.extractDonorData q
        (opts.bind FormFillingOptions.analysisProvider)) = true) →
      (runFormFillingWorkflow env u paths opts).2.donorData =
        some (((paths.map (fun q => env.extractDonorData q
          (opts.bind FormFillingOptions.analysisProvider))).filterMap
            okDonorData).foldl recSpread [])) ∧
    (∀ (env : FormEnv) (u : String) (opts : Option FormFillingOptions)
        (p prov : String) (fields : List FormField) (e : String),
      env.download u = .ok p →
      env.extractFields p (opts.bind FormFillingOptions.analysisProvider) =
        .ok (fields, prov) →
      ((runFormFillingWorkflow env u [] opts).2.donorData =
        some ([] : JsObj) ∧
       (env.mapFields fields []
          (opts.bind FormFillingOptions.confidenceThreshold) = .thrown e →
        (runFormFillingWorkflow env u [] opts).1.message =
          "Field mapping failed"))) := by
  refine ⟨?_, ?_, ?_⟩
  · intro env u paths opts p prov fields hd hf hne hall
    have hcond : ((paths.map (fun q => env.extractDonorData q
        (opts.bind FormFillingOptions.analysisProvider))).all
        (fun r => !donorStatusSuccess r) && decide (paths.length > 0)) = true := by
      rw [Bool.and_eq_true]
      constructor
      · rw [List.all_eq_true]
        intro r hr
        rcases List.mem_map.mp hr with ⟨q, hq, hqe⟩
        rw [← hqe, hall q hq]
        rfl
      · exact decide_eq_true (List.length_pos.mpr hne)
    unfold runFormFillingWorkflow
    rw [hd]
    dsimp only
    rw [hf]
    dsimp only
    rw [if_pos hcond]
    exact ⟨rfl, rfl, rfl⟩
  · intro env u paths opts p prov fields hd hf hex
    have hcond : ¬ ((paths.map (fun q => env.extractDonorData q
        (opts.bind FormFillingOptions.analysisProvider))).all
        (fun r => !donorStatusSuccess r) && decide (paths.length > 0)) = true := by
      rcases hex with ⟨q, hq, hqs⟩
      intro hcontra
      rw [Bool.and_eq_true, List.all_eq_true] at hcontra
      have hq2 := hcontra.1 (env.extractDonorData q
        (opts.bind FormFillingOptions.analysisProvider))
        (List.mem_map_of_mem _ hq)
      rw [hqs] at hq2
      simp at hq2
    rw [runFormFillingWorkflow_donorData_cached env u paths opts p fields prov
      hd hf hcond, donorDataAggregate_eq_union]
  · intro env u opts p prov fields e hd hf
    have hcond : ¬ ((([] : List String).map (fun q => env.extractDonorData q
        (opts.bind FormFillingOptions.analysisProvider))).all
        (fun r => !donorStatusSuccess r) &&
        decide (([] : List String).length > 0)) = true := by
      simp
    constructor
    · rw [runFormFillingWorkflow_donorData_cached env u [] opts p fields prov
        hd hf hcond]
      rfl
    · intro hm
      unfold runFormFillingWorkflow
      rw [hd]
      dsimp only
      rw [hf]
      dsimp only
      rw [if_neg hcond]
      rw [show donorDataAggregate (([] : List String).map
          (fun q => env.extractDonorData q
            (opts.bind FormFillingOptions.analysisProvider))) = ([] : JsObj)
          from rfl, hm]

/-- Witness for C5: the three regimes at concrete inputs — one failing donor
document aborts, one succeeding document yields its record, zero documents
yield the empty record and reach the mapper. -/
theorem donor_aggregation_policy_witness :
    ((runFormFillingWorkflow
        ⟨fun _ => .ok "/f.pdf", fun _ _ => .ok ([], "prov"),
         fun _ _ => .failed ⟨false, "Donor data extraction failed", none,
           some "bad"⟩,
         fun _ _ _ => .thrown "unreached", fun _ _ => .thrown "unreached"⟩
        "u" ["doc1"] none).1 =
      ⟨false, "All donor data extractions failed",
        some (.obj [("formPath", JsVal.null), ("fields", .arr [])]),
        some "Failed to extract data from any donor documents"⟩) ∧
    ((runFormFillingWorkflow
        ⟨fun _ => .ok "/f.pdf", fun _ _ => .ok ([], "prov"),
         fun _ _ => .ok ([("city", JsVal.str "Oakland")], "prov"),
         fun _ _ _ => .thrown "unreached", fun _ _ => .thrown "unreached"⟩
        "u" ["doc1"] none).2.donorData =
      some [("city", JsVal.str "Oakland")]) ∧
    ((runFormFillingWorkflow
        ⟨fun _ => .ok "/f.pdf", fun _ _ => .ok ([], "prov"),
         fun _ _ => .thrown "unreached",
         fun _ _ _ => .thrown "mapper down", fun _ _ => .thrown "unreached"⟩
        "u" [] none).2.donorData = some ([] : JsObj) ∧
     (runFormFillingWorkflow
        ⟨fun _ => .ok "/f.pdf", fun _ _ => .ok ([], "prov"),
         fun _ _ => .thrown "unreached",
         fun _ _ _ => .thrown "mapper down", fun _ _ => .thrown "unreached"⟩
        "u" [] none).1.message = "Field mapping failed") := by
  refine ⟨?_, ?_, ?_⟩
  · exact (donor_aggregation_policy.1
      ⟨fun _ => .ok "/f.pdf", fun _ _ => .ok ([], "prov"),
       fun _ _ => .failed ⟨false, "Donor data extraction failed", none,
         some "bad"⟩,
       fun _ _ _ => .thrown "unreached", fun _ _ => .thrown "unreached"⟩
      "u" ["doc1"] none "/f.pdf" "prov" [] rfl rfl (by simp)
      (fun q _ => rfl)).1
  · exact donor_aggregation_policy.2.1
      ⟨fun _ => .ok "/f.pdf", fun _ _ => .ok ([], "prov"),
       fun _ _ => .ok ([("city", JsVal.str "Oakland")], "prov"),
       fun _ _ _ => .thrown "unreached", fun _ _ => .thrown "unreached"⟩
      "u" ["doc1"] none "/f.pdf" "prov" [] rfl rfl
      ⟨"doc1", List.mem_cons_self _ _, rfl⟩
  · have h := donor_aggregation_policy.2.2
      ⟨fun _ => .ok "/f.pdf", fun _ _ => .ok ([], "prov"),
       fun _ _ => .thrown "unreached",
       fun _ _ _ => .thrown "mapper down", fun _ _ => .thrown "unreached"⟩
      "u" none "/f.pdf" "prov" [] "mapper down" rfl rfl
    exact ⟨h.1, h.2 rfl⟩

/-- C6: donor-data aggregation is order-dependent with last-write-wins:
merging two successful per-document records `[A, B]` in document order gives
`B`'s value at every key that `B` defines. -/
theorem donor_merge_last_write_wins (A B : JsObj) (pA pB : String)
    (k : String) (v : JsVal) (hnd : (B.map Prod.fst).Nodup)
    (hB : recLookup B k = some v) :
    recLookup (donorDataAggregate [.ok (A, pA), .ok (B, pB)]) k = some v := by
  show recLookup (recSpread (recSpread [] A) B) k = some v
  exact recLookup_recSpread_right B _ k v hnd hB

/-- Witness for C6: `merge([{city: LA}, {city: Oakland}]).city = Oakland`. -/
theorem donor_merge_last_write_wins_witness :
    recLookup (donorDataAggregate [.ok ([("city", JsVal.str "LA")], "doc1"),
      .ok ([("city", JsVal.str "Oakland")], "doc2")]) "city" =
      some (JsVal.str "Oakland") :=
  donor_merge_last_write_wins [("city", JsVal.str "LA")]
    [("city", JsVal.str "Oakland")] "doc1" "doc2" "city"
    (JsVal.str "Oakland") (by simp) rfl

/-- C10: `getWorkflowResult` is non-null only when the download, fields and
filled-form cache entries are all present; every run terminating in failure
(hence before the filled-form entry is written) yields a null aggregate even
though earlier stages' artifacts are cached. -/
theorem workflow_result_requires_all_three :
    (∀ c : WorkflowCache, (getFormWorkflowResult c).isSome = true →
      c.download.isSome = true ∧ c.fields.isSome = true ∧
        c.filledForm.isSome = true) ∧
    (∀ (env : FormEnv) (u : String) (paths : List String)
        (opts : Option FormFillingOptions),
      (runFormFillingWorkflow env u paths opts).1.success = false →
      getFormWorkflowResult (runFormFillingWorkflow env u paths opts).2 =
        none) := by
  constructor
  · intro c h
    cases hd : c.download <;> cases hf : c.fields <;> cases hff : c.filledForm <;>
      simp [getFormWorkflowResult, hd, hf, hff] at h ⊢
  · intro env u paths opts h
    rcases runFormFillingWorkflow_filledForm env u paths opts with hs | hn
    · rw [h] at hs
      simp at hs
    · exact getFormWorkflowResult_none_of_no_filledForm _ hn

/-- Witness for C10: a fully cached run satisfies the presence conditions,
and a run whose download throws yields a null aggregate. -/
theorem workflow_result_requires_all_three_witness :
    ((⟨some (downloadSuccess "/f.pdf"), some (downloadSuccess "/f.pdf"),
        none, none, some (downloadSuccess "/f.pdf")⟩ :
        WorkflowCache).download.isSome = true ∧
      (⟨some (downloadSuccess "/f.pdf"), some (downloadSuccess "/f.pdf"),
        none, none, some (downloadSuccess "/f.pdf")⟩ :
        WorkflowCache).fields.isSome = true ∧
      (⟨some (downloadSuccess "/f.pdf"), some (downloadSuccess "/f.pdf"),
        none, none, some (downloadSuccess "/f.pdf")⟩ :
        WorkflowCache).filledForm.isSome = true) ∧
    getFormWorkflowResult (runFormFillingWorkflow
      ⟨fun _ => .thrown "network down", fun _ _ => .thrown "unreached",
       fun _ _ => .thrown "unreached", fun _ _ _ => .thrown "unreached",
       fun _ _ => .thrown "unreached"⟩ "u" [] none).2 = none :=
  ⟨workflow_result_requires_all_three.1
      ⟨some (downloadSuccess "/f.pdf"), some (downloadSuccess "/f.pdf"),
        none, none, some (downloadSuccess "/f.pdf")⟩ rfl,
   workflow_result_requires_all_three.2
      ⟨fun _ => .thrown "network down", fun _ _ => .thrown "unreached",
       fun _ _ => .thrown "unreached", fun _ _ _ => .thrown "unreached",
       fun _ _ => .thrown "unreached"⟩ "u" [] none rfl⟩

/-- C1: the status endpoint can never return the assembled workflow result:
the service queries the orchestrator's cache with its own
`pdf-analysis-<t>` id while `runPdfAnalysisWorkflow` caches all stage
outputs under its internal `workflow-<t>` id, so for every run — including
a fully successful one — a terminal status query carries `result: null`. -/
theorem pdf_status_query_result_always_null (env : PdfEnv) (pdfUrl : String)
    (options : Option PdfOptions) (s : String) (t₁ t₂ : Nat)
    (hterm : s ≠ "running") :
    (getWorkflowStatusModel s (runPdfAnalysisWorkflow env pdfUrl options t₂).2
      (serviceWorkflowId t₁)).result = none := by
  have hkeys := runPdf_cache_keys env pdfUrl options t₂
  have hd : recLookup (runPdfAnalysisWorkflow env pdfUrl options t₂).2
      (serviceWorkflowId t₁ ++ "-download") = none := by
    apply recLookup_none_of_keys
    intro p hp
    rcases hkeys p hp with h1 | h1 <;> rw [h1] <;>
      exact orchestrator_key_ne_service_key _ _ _ _
  unfold getWorkflowStatusModel
  rw [if_pos hterm]
  dsimp only
  unfold pdfGetWorkflowResult
  rw [hd]

/-- Witness for C1: a run whose two stages both succeed, registered at
service time 0 and executed at orchestrator time 0, still answers a
terminal (`success`) status query with a null result. -/
theorem pdf_status_query_result_always_null_witness :
    (getWorkflowStatusModel "success"
      (runPdfAnalysisWorkflow ⟨fun _ _ => .ok "/tmp/a.pdf",
        fun _ _ => .ok ([], "openai")⟩ "http://x/a.pdf" none 0).2
      (serviceWorkflowId 0)).result = none :=
  pdf_status_query_result_always_null ⟨fun _ _ => .ok "/tmp/a.pdf",
    fun _ _ => .ok ([], "openai")⟩ "http://x/a.pdf" none "success" 0 0
    (by decide)
